import Mathlib

/-!
Verification of `YoshiRi/evaluator_result_parser` against its specification.

The development shallowly embeds the two core source files:

* `analiys_jsonl_res.py` — the JSONL extraction pipeline (`ObjectExtractor`):
  Python values are modelled by the tagged union `JVal`, Python `dict.get`
  by `pyGet` (raising `AttributeError` on non-dict receivers, modelled with
  `Except`), and the extraction functions `convert_to_list`, `safe_get`,
  `get_success`, `parse_ego`, `extract_objects` are translated line by line.

* `test_canvas.py` — the metrics / aggregation engine (`DatasetManager`):
  the pandas DataFrame is modelled as a `List DRow` (one structure field per
  column), and `map_to_category`, `calculate_category_metrics`,
  `calculate_metrics`, `distance_based_fp_tp_fn`,
  `distance_based_categoly_analysis` are translated directly.

Machine floats are modelled as rationals (`ℚ`); Python exceptions as
`Except String`.
-/

/-- Tagged union modelling a parsed Python/JSON value: `None`, `bool`,
numbers (floats modelled as rationals), `str`, `list`, `dict` (as an ordered
association list, later duplicate keys shadowing earlier ones as in
`json.loads`). -/
inductive JVal where
  | null : JVal
  | bool (b : Bool) : JVal
  | num (q : ℚ) : JVal
  | str (s : String) : JVal
  | arr (xs : List JVal) : JVal
  | obj (fields : List (String × JVal)) : JVal

/-- Python truthiness of a value: `None`, `False`, `0`, `""`, `[]`, `{}` are
falsy, everything else truthy. Used for `if not frame`, `if not header_stamp`
and the `if obj` guard in `safe_get`. -/
def truthy : JVal → Bool
  | .null => false
  | .bool b => b
  | .num q => if q = 0 then false else true
  | .str s => if s = "" then false else true
  | .arr xs => if xs.isEmpty then false else true
  | .obj fields => if fields.isEmpty then false else true

/-- Lookup in a Python dict modelled as an ordered association list; a later
binding for the same key shadows an earlier one. -/
def dictGet : List (String × JVal) → String → Option JVal
  | [], _ => none
  | p :: fields, k =>
    match dictGet fields k with
    | some v => some v
    | none => if p.1 = k then some p.2 else none

/-- Python `value.get(key, default)`: on a dict it returns the stored value
or the default; on any non-dict receiver Python raises `AttributeError`,
modelled as `Except.error`. -/
def pyGet (v : JVal) (k : String) (d : JVal) : Except String JVal :=
  match v with
  | .obj fields => .ok ((dictGet fields k).getD d)
  | _ => .error "AttributeError"

/-- `ObjectExtractor.safe_get(obj, key)` (default `None` at every call site):
`if obj and isinstance(obj, dict): return obj.get(key, default)` else the
default. Total, never raises. -/
def safe_get (v : JVal) (k : String) : JVal :=
  match v with
  | .obj fields => if fields.isEmpty then .null else (dictGet fields k).getD .null
  | _ => .null

/-- Numeric view of a Python value for arithmetic: numbers are themselves and
booleans are 0/1 (`bool` is an `int` subclass); everything else is not a
number, so arithmetic on it raises `TypeError`. -/
def pyNum : JVal → Option ℚ
  | .num q => some q
  | .bool b => some (if b then 1 else 0)
  | _ => none

/-- The timestamp expression of `parse_ego`,
`header_stamp.get('sec', None) + header_stamp.get('nanosec', 0) * 1e-9`:
both operands must be numeric, otherwise Python raises `TypeError`. -/
def addStamp (sec nano : JVal) : Except String ℚ :=
  match pyNum sec, pyNum nano with
  | some s, some n => .ok (s + n * (1 / 1000000000))
  | _, _ => .error "TypeError"

/-- Python `s.lower()` for the ASCII strings this pipeline sees. -/
def pyLower (s : String) : String := String.mk (s.data.map Char.toLower)

/-- Case-insensitive string equality obtained by lower-casing both sides,
used to state the specified behaviour of the success coercion. -/
def caseInsensitiveEq (a b : String) : Bool := pyLower a == pyLower b

/-- `ObjectExtractor.get_success(obj)`: `None` gives `False`, a bool is
itself, a string compares its lower-casing with `'true'`; any other value has
no `.lower` attribute so Python raises `AttributeError`. -/
def get_success : JVal → Except String Bool
  | .null => .ok false
  | .bool b => .ok b
  | .str s => .ok (pyLower s == "true")
  | _ => .error "AttributeError"

/-- Python `s.replace(c, "")` for a single-character pattern: removes every
occurrence of that character. -/
def removeAllChar (s : String) (c : Char) : String :=
  String.mk (s.data.filter (fun a => a ≠ c))

/-- Numeric value of a list of decimal digit characters. -/
def digitsToNat (cs : List Char) : Nat :=
  cs.foldl (fun a c => a * 10 + (c.toNat - 48)) 0

/-- Parses a non-empty all-digit character list, as needed for the parts of a
float literal. -/
def parseDigits : List Char → Option Nat
  | [] => none
  | cs => if cs.all Char.isDigit then some (digitsToNat cs) else none

/-- Parses the mantissa of a float literal: digits with an optional single
decimal point, at least one digit overall. -/
def parseMantissa (cs : List Char) : Option ℚ :=
  match cs.span (fun c => c ≠ '.') with
  | (ip, []) => (parseDigits ip).map (fun n => (n : ℚ))
  | (ip, _ :: fp) =>
    if (ip ≠ [] ∨ fp ≠ []) ∧ ip.all Char.isDigit ∧ fp.all Char.isDigit then
      some ((digitsToNat ip : ℚ) + (digitsToNat fp : ℚ) / (10 : ℚ) ^ fp.length)
    else none

/-- Optional sign prefix; returns the sign as a rational unit and the rest. -/
def splitSign : List Char → ℚ × List Char
  | '-' :: r => (-1, r)
  | '+' :: r => (1, r)
  | r => (1, r)

/-- Whitespace stripped by Python `float` around a literal. -/
def isPySpace (c : Char) : Bool :=
  c = ' ' ∨ c = '\t' ∨ c = '\n' ∨ c = '\r' ∨ c = '\x0b' ∨ c = '\x0c'

/-- Strips leading and trailing whitespace from a character list. -/
def stripSpaces (cs : List Char) : List Char :=
  ((cs.dropWhile isPySpace).reverse.dropWhile isPySpace).reverse

/-- Python `float(s)` restricted to the decimal forms occurring in this data:
optional surrounding whitespace, optional sign, digits with an optional
fractional part, optional exponent. (`inf`, `nan` and digit underscores are
not modelled.) Returns `none` where Python raises `ValueError`. -/
def pyFloat (s : String) : Option ℚ :=
  let cs := stripSpaces s.data
  let sm := splitSign cs
  match sm.2.span (fun c => c ≠ 'e' ∧ c ≠ 'E') with
  | (mant, []) => (parseMantissa mant).map (fun m => sm.1 * m)
  | (mant, _ :: ex) =>
    match parseMantissa mant with
    | none => none
    | some m =>
      let es := splitSign ex
      match parseDigits es.2 with
      | none => none
      | some n =>
        some (sm.1 * m * (if es.1 = 1 then (10 : ℚ) ^ n else ((10 : ℚ) ^ n)⁻¹))

/-- Python `[float(cov) for cov in toks]`: parses every token or fails as a
whole (the comprehension raises on the first bad token, so no partial list
survives). -/
def parseFloatList : List String → Option (List ℚ)
  | [] => some []
  | t :: ts =>
    match pyFloat t, parseFloatList ts with
    | some q, some qs => some (q :: qs)
    | _, _ => none

/-- Python `s.split(",")` at character level: the empty string gives one
empty token, and each comma starts a new token. -/
def splitComma : List Char → List (List Char)
  | [] => [[]]
  | c :: cs =>
    if c = ',' then [] :: splitComma cs
    else
      match splitComma cs with
      | [] => [[c]]
      | t :: ts => (c :: t) :: ts

/-- The token list produced inside `convert_to_list` for a string input:
`value.replace("[", "").replace("]", "").split(",")`. -/
def tokensOf (s : String) : List String :=
  (splitComma (removeAllChar (removeAllChar s '[') ']').data).map String.mk

/-- `ObjectExtractor.convert_to_list(value)`: a string has all bracket
characters removed, is split on commas and every token parsed as a float,
any `ValueError` yielding `[]`; a list passes through unchanged; anything
else yields `[]`. -/
def convert_to_list (value : JVal) : JVal :=
  match value with
  | .str s =>
    match parseFloatList (tokensOf s) with
    | some qs => .arr (qs.map JVal.num)
    | none => .arr []
  | .arr xs => .arr xs
  | _ => .arr []

/-- Modelled from the spec: the spec's reference definition of
`toNumericList`, which strips a single pair of enclosing bracket characters
if present (rather than removing all brackets), splits on commas and parses
each token as a float all-or-nothing; sequences pass through; other values
give the empty sequence. Stated only to compare with `convert_to_list`. -/
def toNumericList_spec (value : JVal) : JVal :=
  match value with
  | .str s =>
    let cs := s.data
    let cs2 :=
      if cs.head? = some '[' ∧ cs.getLast? = some ']' ∧ 2 ≤ cs.length then
        (cs.drop 1).dropLast
      else cs
    match parseFloatList ((splitComma cs2).map String.mk) with
    | some qs => .arr (qs.map JVal.num)
    | none => .arr []
  | .arr xs => .arr xs
  | _ => .arr []

/-- A flattened output row: a Python dict written as an ordered association
list, exactly as built by the dict literals in `parse_ego` and
`extract_objects`. -/
abbrev Row := List (String × JVal)

/-- Key list of a row, i.e. the set of column names it carries. -/
def keysOf (r : Row) : List String := r.map Prod.fst

/-- `ObjectExtractor.parse_ego(frame)`: follows the source's lookup chain
`frame.get('Ego', {})`, `.get('TransformStamped', {})`, `.get('transform',
{})`, `.get('header', {}).get('stamp', {})`; a falsy stamp returns the empty
dict; otherwise the timestamp is computed (a missing `sec` makes the
addition raise) and the nine-field ego row is assembled. -/
def parse_ego (frame : JVal) : Except String Row :=
  (pyGet frame "Ego" (.obj [])).bind fun ego =>
  (pyGet ego "TransformStamped" (.obj [])).bind fun transform =>
  (pyGet transform "transform" (.obj [])).bind fun transform_data =>
  (pyGet transform "header" (.obj [])).bind fun hdr =>
  (pyGet hdr "stamp" (.obj [])).bind fun header_stamp =>
  if truthy header_stamp = false then .ok []
  else
  (pyGet header_stamp "sec" .null).bind fun sec =>
  (pyGet header_stamp "nanosec" (.num 0)).bind fun nano =>
  (addStamp sec nano).bind fun ts =>
  (pyGet transform_data "translation" (.obj [])).bind fun translation =>
  (pyGet transform_data "rotation" (.obj [])).bind fun rotation =>
  (pyGet translation "x" .null).bind fun tx =>
  (pyGet translation "y" .null).bind fun ty =>
  (pyGet translation "z" .null).bind fun tz =>
  (pyGet rotation "x" .null).bind fun rx =>
  (pyGet rotation "y" .null).bind fun ry =>
  (pyGet rotation "z" .null).bind fun rz =>
  (pyGet rotation "w" .null).bind fun rw =>
  .ok [("timestamp", .num ts), ("object_type", .str "Ego"),
       ("position_x", tx), ("position_y", ty), ("position_z", tz),
       ("orientation_x", rx), ("orientation_y", ry), ("orientation_z", rz),
       ("orientation_w", rw)]

/-- Observer mirroring the prefix of `parse_ego` up to
`transform.get('header', {}).get('stamp', {})`: the stamp value the source
tests with `if not header_stamp`. Used only to state properties of
`parse_ego`. -/
def egoStamp (frame : JVal) : Except String JVal :=
  (pyGet frame "Ego" (.obj [])).bind fun ego =>
  (pyGet ego "TransformStamped" (.obj [])).bind fun transform =>
  (pyGet transform "transform" (.obj [])).bind fun _tdata =>
  (pyGet transform "header" (.obj [])).bind fun hdr =>
  pyGet hdr "stamp" (.obj [])

/-- Python iteration `for obj in objects`: lists yield their elements,
strings their characters, dicts their keys; any other value raises
`TypeError`. -/
def pyIterate : JVal → Except String (List JVal)
  | .arr xs => .ok xs
  | .str s => .ok (s.data.map (fun c => .str (String.mk [c])))
  | .obj fields => .ok (fields.map (fun p => .str p.1))
  | _ => .error "TypeError"

/-- One object row of `extract_objects`: the dict literal of lines 103-129,
with the record-level `stamp` and `success` shared across the record. The
per-field `obj.get` calls raise on a non-dict object. -/
def extractObjRow (obj stamp success : JVal) : Except String Row :=
  (pyGet obj "status" (.str "Unknown")).bind fun status =>
  (pyGet obj "object_type" (.str "Unknown")).bind fun otype =>
  (pyGet obj "label" (.str "")).bind fun label =>
  (pyGet obj "distance_from_ego" .null).bind fun dist =>
  (pyGet obj "position" .null).bind fun position =>
  (pyGet obj "velocity" .null).bind fun velocity =>
  (pyGet obj "orientation" .null).bind fun orientation =>
  (pyGet obj "pose_error" .null).bind fun pose_error =>
  (pyGet obj "heading_error" .null).bind fun heading_error =>
  (pyGet obj "velocity_error" .null).bind fun velocity_error =>
  (pyGet obj "bev_error" .null).bind fun bev =>
  (pyGet obj "pose_covariance" (.arr [])).bind fun pcov =>
  (pyGet obj "twist_covariance" (.arr [])).bind fun tcov =>
  (get_success success).bind fun fsucc =>
  .ok [("timestamp", stamp), ("status", status), ("object_type", otype),
       ("label", label), ("distance_from_ego", dist),
       ("position_x", safe_get position "x"),
       ("position_y", safe_get position "y"),
       ("position_z", safe_get position "z"),
       ("velocity_x", safe_get velocity "x"),
       ("velocity_y", safe_get velocity "y"),
       ("velocity_z", safe_get velocity "z"),
       ("orientation_x", safe_get orientation "x"),
       ("orientation_y", safe_get orientation "y"),
       ("orientation_z", safe_get orientation "z"),
       ("orientation_w", safe_get orientation "w"),
       ("pose_error_x", safe_get pose_error "x"),
       ("pose_error_y", safe_get pose_error "y"),
       ("pose_error_z", safe_get pose_error "z"),
       ("heading_error_z", safe_get heading_error "z"),
       ("velocity_error_x", safe_get velocity_error "x"),
       ("velocity_error_y", safe_get velocity_error "y"),
       ("bev_error", bev),
       ("pose_covariance", convert_to_list pcov),
       ("twist_covariance", convert_to_list tcov),
       ("frame_success", .bool fsucc)]

/-- Sequential traversal of a list with an `Except`-producing function,
modelling the Python `for` loop that appends one row per object and lets an
exception abort the whole extraction. -/
def exceptMapList (f : JVal → Except String Row) : List JVal → Except String (List Row)
  | [] => .ok []
  | x :: xs =>
    (f x).bind fun r =>
    (exceptMapList f xs).bind fun rs =>
    .ok (r :: rs)

/-- The body of `extract_objects` for one record: reads `Frame` (a falsy
frame contributes nothing), the record-level `Stamp.ROS` and
`Result.Success`, `frame.criteria0.Objects`, appends the `parse_ego` result
unconditionally and then one row per object. -/
def extractRecord (record : JVal) : Except String (List Row) :=
  (pyGet record "Frame" (.obj [])).bind fun frame =>
  if truthy frame = false then .ok []
  else
  (pyGet record "Result" (.obj [])).bind fun result =>
  (pyGet record "Stamp" (.obj [])).bind fun stampC =>
  (pyGet stampC "ROS" .null).bind fun stamp =>
  (pyGet result "Success" .null).bind fun success =>
  (pyGet frame "criteria0" (.obj [])).bind fun criteria0 =>
  (pyGet criteria0 "Objects" (.arr [])).bind fun objectsV =>
  (parse_ego frame).bind fun egoRow =>
  (pyIterate objectsV).bind fun objs =>
  (exceptMapList (fun o => extractObjRow o stamp success) objs).bind fun objRows =>
  .ok (egoRow :: objRows)

/-- `ObjectExtractor.extract_objects(data)`: concatenates the rows of every
record in input order; an exception anywhere aborts the whole call. -/
def extract_objects : List JVal → Except String (List Row)
  | [] => .ok []
  | record :: rest =>
    (extractRecord record).bind fun rs =>
    (extract_objects rest).bind fun more =>
    .ok (rs ++ more)

/-- Observer for the row count of one record: zero rows for a falsy frame,
otherwise one ego entry plus one row per iterated object. Follows the same
lookup chain as `extractRecord`; used only to state the row-count
property. -/
def recordRowCount (record : JVal) : Except String Nat :=
  (pyGet record "Frame" (.obj [])).bind fun frame =>
  if truthy frame = false then .ok 0
  else
  (pyGet record "Result" (.obj [])).bind fun result =>
  (pyGet record "Stamp" (.obj [])).bind fun stampC =>
  (pyGet stampC "ROS" .null).bind fun _stamp =>
  (pyGet result "Success" .null).bind fun _success =>
  (pyGet frame "criteria0" (.obj [])).bind fun criteria0 =>
  (pyGet criteria0 "Objects" (.arr [])).bind fun objectsV =>
  (pyIterate objectsV).bind fun objs =>
  .ok (objs.length + 1)

/-- The key list of every well-formed ego row. -/
def egoKeys : List String :=
  ["timestamp", "object_type", "position_x", "position_y", "position_z",
   "orientation_x", "orientation_y", "orientation_z", "orientation_w"]

/-- The key list of every object row. -/
def objKeys : List String :=
  ["timestamp", "status", "object_type", "label", "distance_from_ego",
   "position_x", "position_y", "position_z",
   "velocity_x", "velocity_y", "velocity_z",
   "orientation_x", "orientation_y", "orientation_z", "orientation_w",
   "pose_error_x", "pose_error_y", "pose_error_z", "heading_error_z",
   "velocity_error_x", "velocity_error_y", "bev_error",
   "pose_covariance", "twist_covariance", "frame_success"]

/-- A row of the CSV as read by `DatasetManager`, restricted to the columns
its methods touch: `label`, `status` and `distance_from_ego` (nullable). -/
structure CsvRow where
  label : String
  status : String
  distance_from_ego : Option ℚ
deriving DecidableEq

/-- A row of the managed DataFrame: the CSV columns together with the
derived `general_category` column added by `_apply_category_mapping` and the
`distance_bin` column added (and overwritten) by the distance aggregations;
`none` models the column being absent and `some none` a `NaN` cell. -/
structure DRow where
  label : String
  status : String
  distance_from_ego : Option ℚ
  general_category : String
  distance_bin : Option (Option ℚ)
deriving DecidableEq

/-- The `{TPrate, mAP}` result of `calculate_category_metrics`. -/
structure Metrics where
  TPrate : ℚ
  mAP : ℚ
deriving DecidableEq

/-- `DatasetManager.map_to_category(label)`: builds the reverse mapping dict
by inserting `item -> category` for every category in mapping order and
every item of its label list (later inserts overwriting earlier ones), then
looks the label up with default `'unclassified'`. -/
def map_to_category (mapping : List (String × List String)) (label : String) : String :=
  let reverse :=
    mapping.foldl
      (fun m p => p.2.foldl (fun m item => fun k => if k = item then some p.1 else m k) m)
      (fun _ => (none : Option String))
  (reverse label).getD "unclassified"

/-- `DatasetManager.__init__` followed by `_apply_category_mapping`: loads
the rows and adds the `general_category` column derived from `label`. -/
def apply_category_mapping (mapping : List (String × List String)) (rows : List CsvRow) : List DRow :=
  rows.map (fun r =>
    { label := r.label, status := r.status,
      distance_from_ego := r.distance_from_ego,
      general_category := map_to_category mapping r.label,
      distance_bin := none })

/-- `DatasetManager.calculate_category_metrics(category)`: filters the rows
of the category, counts `TP` halved (double counting), `FP`, `FN`, and
returns the guarded quotients. -/
def calculate_category_metrics (data : List DRow) (category : String) : Metrics :=
  let category_data := data.filter (fun r => r.general_category = category)
  let tp : ℚ := ((category_data.filter (fun r => r.status = "TP")).length : ℚ) / 2
  let fp : ℚ := ((category_data.filter (fun r => r.status = "FP")).length : ℚ)
  let fn : ℚ := ((category_data.filter (fun r => r.status = "FN")).length : ℚ)
  { TPrate := if tp + fn > 0 then tp / (tp + fn) else 0,
    mAP := if tp + fp > 0 then tp / (tp + fp) else 0 }

/-- Pandas `Series.unique()`: the distinct values in order of first
appearance; `seen` accumulates the values already emitted. -/
def uniqueAux (seen : List String) : List String → List String
  | [] => []
  | x :: xs => if x ∈ seen then uniqueAux seen xs else x :: uniqueAux (x :: seen) xs

/-- `DatasetManager.calculate_metrics()`: one metrics entry per distinct
`general_category` value except `'unclassified'`, in order of first
appearance. -/
def calculate_metrics (data : List DRow) : List (String × Metrics) :=
  ((uniqueAux [] (data.map (fun r => r.general_category))).filter
      (fun c => c ≠ "unclassified")).map
    (fun c => (c, calculate_category_metrics data c))

/-- Pandas `(distance // bin_size) * bin_size` on a non-null cell: float
floor division followed by the multiplication. -/
def binOf (d bin_size : ℚ) : ℚ := (Int.floor (d / bin_size) : ℚ) * bin_size

/-- The column assignment
`self.data['distance_bin'] = (self.data['distance_from_ego'] // bin_size) * bin_size`:
every row's `distance_bin` cell is set (overwriting any previous value),
with null distances propagating to `NaN` cells. -/
def assignDistanceBin (data : List DRow) (bin_size : ℚ) : List DRow :=
  data.map (fun r =>
    { r with distance_bin := some (r.distance_from_ego.map (fun d => binOf d bin_size)) })

/-- `DatasetManager.distance_based_fp_tp_fn(bin_size)`: assigns the
`distance_bin` column, then groups by `(distance_bin, status)` and counts;
pandas `groupby` drops `NaN` group keys, so only cells equal to an actual
bin value are counted. Returns the group-size function together with the
mutated stored dataset. -/
def distance_based_fp_tp_fn (data : List DRow) (bin_size : ℚ) :
    (ℚ → String → Nat) × List DRow :=
  let d2 := assignDistanceBin data bin_size
  (fun b s => (d2.filter (fun r => r.distance_bin = some (some b) ∧ r.status = s)).length,
   d2)

/-- `DatasetManager.distance_based_categoly_analysis(bin_size)` (source
spelling): same as `distance_based_fp_tp_fn` but grouping by
`(distance_bin, general_category)`. -/
def distance_based_categoly_analysis (data : List DRow) (bin_size : ℚ) :
    (ℚ → String → Nat) × List DRow :=
  let d2 := assignDistanceBin data bin_size
  (fun b c => (d2.filter (fun r => r.distance_bin = some (some b) ∧ r.general_category = c)).length,
   d2)

/-- One distance-aggregation call, by status or by category, with its bin
size. -/
inductive AggOp where
  | byStatus (bin_size : ℚ)
  | byCategory (bin_size : ℚ)

/-- The stored dataset after one aggregation call. -/
def applyAggOp (data : List DRow) : AggOp → List DRow
  | .byStatus b => (distance_based_fp_tp_fn data b).2
  | .byCategory b => (distance_based_categoly_analysis data b).2

/-- The stored dataset after a sequence of aggregation calls. -/
def applyAggOps (data : List DRow) (ops : List AggOp) : List DRow :=
  ops.foldl applyAggOp data

/-- A row with its `distance_bin` column forgotten: the projection to every
pre-existing column (label, status, distance, general_category). -/
def eraseBin (r : DRow) : DRow := { r with distance_bin := none }

/-- Number of rows of a category carrying a given status, the quantity the
spec's metric formulas are stated over. -/
def statusCount (data : List DRow) (category status : String) : Nat :=
  (data.filter (fun r => r.general_category = category ∧ r.status = status)).length

/-- The spec's worked metrics example: rows of category `car` with 4
`TP`-status rows (2 matched pairs), 1 `FP` and 1 `FN`. -/
def exDataC1 : List DRow :=
  [{ label := "car", status := "TP", distance_from_ego := some 10,
     general_category := "car", distance_bin := none },
   { label := "car", status := "TP", distance_from_ego := some 12,
     general_category := "car", distance_bin := none },
   { label := "vehicle.car", status := "TP", distance_from_ego := some (117/5),
     general_category := "car", distance_bin := none },
   { label := "vehicle.car", status := "TP", distance_from_ego := some 30,
     general_category := "car", distance_bin := none },
   { label := "car", status := "FP", distance_from_ego := some 8,
     general_category := "car", distance_bin := none },
   { label := "car", status := "FN", distance_from_ego := none,
     general_category := "car", distance_bin := none }]

/-- A frame whose ego structure carries an empty `header.stamp`. -/
def frameNoStamp : JVal :=
  .obj [("Ego", .obj [("TransformStamped", .obj
    [("header", .obj [("stamp", .obj [])]), ("transform", .obj [])])])]

/-- A record wrapping `frameNoStamp`, used to exhibit the empty entry that
`extract_objects` still appends for a stamp-less frame. -/
def recNoStamp : JVal := .obj [("Frame", frameNoStamp)]

/-- A frame with the spec's worked stamp (`sec=1606799233`,
`nanosec=249851000`) and one translation coordinate. -/
def frameWithStamp : JVal :=
  .obj [("Ego", .obj [("TransformStamped", .obj
    [("header", .obj [("stamp", .obj
       [("sec", .num 1606799233), ("nanosec", .num 249851000)])]),
     ("transform", .obj
       [("translation", .obj [("x", .num 7)]), ("rotation", .obj [])])])])]

/-- A frame whose stamp is present and non-empty but lacks `sec`. -/
def frameNoSec : JVal :=
  .obj [("Ego", .obj [("TransformStamped", .obj
    [("header", .obj [("stamp", .obj [("nanosec", .num 5)])]),
     ("transform", .obj [])])])]

/-- A record with a well-formed ego frame and a single (empty-dict) object,
used to compare the ego and object column sets. -/
def recEgoAndObject : JVal :=
  .obj [("Frame", .obj
     [("Ego", .obj [("TransformStamped", .obj
        [("header", .obj [("stamp", .obj [("sec", .num 1), ("nanosec", .num 0)])]),
         ("transform", .obj [("translation", .obj []), ("rotation", .obj [])])])]),
      ("criteria0", .obj [("Objects", .arr [.obj []])])]),
    ("Result", .obj [("Success", .bool true)]),
    ("Stamp", .obj [("ROS", .num 5)])]

/-- A two-category mapping used to instantiate the metrics theorems. -/
def exMapping : List (String × List String) :=
  [("car", ["car", "vehicle.car"]), ("pedestrian", ["pedestrian"])]

/-- CSV rows used to instantiate `calculate_metrics`: two classified labels
and one unmapped label. -/
def exCsvRows : List CsvRow :=
  [{ label := "car", status := "TP", distance_from_ego := some 10 },
   { label := "pedestrian", status := "FN", distance_from_ego := none },
   { label := "tree", status := "FP", distance_from_ego := some 3 }]

/-- Dataset rows exercising the distance binning: one row in bin 20, one in
bin 0 and one null-distance row. -/
def exDataC6 : List DRow :=
  [{ label := "car", status := "TP", distance_from_ego := some (117/5),
     general_category := "car", distance_bin := none },
   { label := "car", status := "TP", distance_from_ego := some 3,
     general_category := "car", distance_bin := none },
   { label := "car", status := "TP", distance_from_ego := none,
     general_category := "car", distance_bin := none }]

theorem except_bind_ok {α β : Type} {e : Except String α} {f : α → Except String β} {b : β} :
    e.bind f = Except.ok b ↔ ∃ a, e = Except.ok a ∧ f a = Except.ok b := by
  cases e with
  | error msg => simp [Except.bind]
  | ok a => simp [Except.bind]

theorem parseFloatList_none_of_mem {t : String} {ts : List String}
    (hmem : t ∈ ts) (hbad : pyFloat t = none) : parseFloatList ts = none := by
  induction ts with
  | nil => cases hmem
  | cons u us ih =>
    rcases List.mem_cons.mp hmem with h | h
    · subst h
      simp [parseFloatList, hbad]
    · unfold parseFloatList
      rw [ih h]
      cases pyFloat u <;> rfl

theorem foldl_insert_labels (cat : String) (labels : List String)
    (m : String → Option String) (label : String) :
    (labels.foldl (fun m item => fun k => if k = item then some cat else m k) m) label =
      if label ∈ labels then some cat else m label := by
  induction labels generalizing m with
  | nil => simp
  | cons x xs ih =>
    simp only [List.foldl_cons, ih, List.mem_cons]
    by_cases hx : label ∈ xs
    · simp [hx]
    · by_cases hl : label = x <;> simp [hx, hl]

theorem foldl_reverse_build (mapping : List (String × List String))
    (m : String → Option String) (label : String) :
    (mapping.foldl
        (fun m p => p.2.foldl (fun m item => fun k => if k = item then some p.1 else m k) m)
        m) label =
      (match mapping.reverse.find? (fun p => decide (label ∈ p.2)) with
       | some p => some p.1
       | none => m label) := by
  induction mapping generalizing m with
  | nil => simp
  | cons p ps ih =>
    simp only [List.foldl_cons, ih, List.reverse_cons, List.find?_append]
    cases hfind : ps.reverse.find? (fun p => decide (label ∈ p.2)) with
    | some q => simp
    | none =>
      simp only [Option.none_or, List.find?]
      rw [foldl_insert_labels]
      by_cases hl : label ∈ p.2 <;> simp [hl]

/-- C9: `map_to_category` returns the category whose label set contains the
label, resolving overlapping entries to the category listed last in the
mapping (last-write-wins), and `"unclassified"` when no category's label
set contains the label. -/
theorem C9_map_to_category_last_write_wins
    (mapping : List (String × List String)) (label : String) :
    (map_to_category mapping label =
      (match mapping.reverse.find? (fun p => decide (label ∈ p.2)) with
       | some p => p.1
       | none => "unclassified")) ∧
    ((∀ p ∈ mapping, label ∉ p.2) → map_to_category mapping label = "unclassified") := by
  have hbase : map_to_category mapping label =
      (match mapping.reverse.find? (fun p => decide (label ∈ p.2)) with
       | some p => p.1
       | none => "unclassified") := by
    simp only [map_to_category]
    rw [foldl_reverse_build]
    cases mapping.reverse.find? (fun p => decide (label ∈ p.2)) <;> simp
  refine ⟨hbase, fun hnone => ?_⟩
  rw [hbase]
  have : mapping.reverse.find? (fun p => decide (label ∈ p.2)) = none := by
    rw [List.find?_eq_none]
    intro p hp
    simpa using hnone p (List.mem_reverse.mp hp)
  rw [this]

theorem C9_witness :
    map_to_category [("car", ["car", "vehicle.car"]), ("bike", ["car"])] "car" = "bike" :=
  (C9_map_to_category_last_write_wins
    [("car", ["car", "vehicle.car"]), ("bike", ["car"])] "car").1.trans (by decide)

/-- C8: the boolean coercion maps null to false, a boolean to itself, and a
string to true iff it equals `"true"` case-insensitively; in particular
`True`, `"TRUE"`, `"false"` and `None` map to true, true, false, false. -/
theorem C8_get_success_behavior :
    get_success JVal.null = Except.ok false ∧
    (∀ b, get_success (JVal.bool b) = Except.ok b) ∧
    (∀ s, get_success (JVal.str s) = Except.ok (caseInsensitiveEq s "true")) ∧
    get_success (JVal.bool true) = Except.ok true ∧
    get_success (JVal.str "TRUE") = Except.ok true ∧
    get_success (JVal.str "false") = Except.ok false ∧
    get_success JVal.null = Except.ok false := by
  have hlower : pyLower "true" = "true" := by decide
  exact ⟨rfl, fun b => rfl,
    fun s => by simp [get_success, caseInsensitiveEq, hlower],
    rfl, by rfl, by rfl, rfl⟩

/-- C5 counterexample: on the input `"[[1]]"` the code removes every
bracket character and parses `"1"`, while the spec's reference definition
strips only a single enclosing pair, leaving the unparsable token `"[1]"`;
the two disagree, so the coercion does not satisfy the reference definition
on every input. -/
theorem C5_counterexample :
    convert_to_list (JVal.str "[[1]]") = JVal.arr [JVal.num 1] ∧
    toNumericList_spec (JVal.str "[[1]]") = JVal.arr [] ∧
    convert_to_list (JVal.str "[[1]]") ≠ toNumericList_spec (JVal.str "[[1]]") := by
  have h1 : convert_to_list (JVal.str "[[1]]") = JVal.arr [JVal.num 1] := by
    simp +decide [convert_to_list, tokensOf, splitComma, removeAllChar,
      parseFloatList, pyFloat, stripSpaces, isPySpace, splitSign,
      parseMantissa, parseDigits, digitsToNat]
  have h2 : toNumericList_spec (JVal.str "[[1]]") = JVal.arr [] := by rfl
  refine ⟨h1, h2, ?_⟩
  rw [h1, h2]
  simp

/-- C5 (amended): the numeric-list coercion returns a sequence unchanged;
a string has every bracket character `[` `]` removed (not only a single
enclosing pair), is split on commas and each token parsed as a float, any
parse failure making the whole conversion return the empty sequence; any
other value yields the empty sequence; the four worked examples hold. -/
theorem C5_convert_to_list_behavior :
    (∀ xs, convert_to_list (JVal.arr xs) = JVal.arr xs) ∧
    convert_to_list JVal.null = JVal.arr [] ∧
    (∀ q, convert_to_list (JVal.num q) = JVal.arr []) ∧
    (∀ b, convert_to_list (JVal.bool b) = JVal.arr []) ∧
    (∀ fields, convert_to_list (JVal.obj fields) = JVal.arr []) ∧
    (∀ s qs, parseFloatList (tokensOf s) = some qs →
      convert_to_list (JVal.str s) = JVal.arr (qs.map JVal.num)) ∧
    (∀ s, parseFloatList (tokensOf s) = none →
      convert_to_list (JVal.str s) = JVal.arr []) ∧
    (∀ s t, t ∈ tokensOf s → pyFloat t = none →
      convert_to_list (JVal.str s) = JVal.arr []) ∧
    convert_to_list (JVal.str "[1.0, 2.5, 3]") =
      JVal.arr [JVal.num 1, JVal.num (5/2), JVal.num 3] ∧
    convert_to_list (JVal.str "bad,data") = JVal.arr [] ∧
    convert_to_list (JVal.arr [JVal.num 1, JVal.num 2]) =
      JVal.arr [JVal.num 1, JVal.num 2] := by
  refine ⟨fun xs => rfl, rfl, fun q => rfl, fun b => rfl, fun fields => rfl,
    fun s qs h => by simp [convert_to_list, h],
    fun s h => by simp [convert_to_list, h],
    fun s t hmem hbad => by
      simp [convert_to_list, parseFloatList_none_of_mem hmem hbad],
    ?_, by rfl, by rfl⟩
  simp +decide [convert_to_list, tokensOf, splitComma, removeAllChar,
    parseFloatList, pyFloat, stripSpaces, isPySpace, splitSign,
    parseMantissa, parseDigits, digitsToNat]
  norm_num

theorem C5_convert_to_list_behavior_witness :
    convert_to_list (JVal.str "bad,data") = JVal.arr [] :=
  C5_convert_to_list_behavior.2.2.2.2.2.2.2.1 "bad,data" "bad" (by decide) (by rfl)

theorem statusCount_eq (data : List DRow) (category status : String) :
    ((data.filter (fun r => r.general_category = category)).filter
        (fun r => r.status = status)).length = statusCount data category status := by
  rw [List.filter_filter]
  unfold statusCount
  apply congrArg List.length
  apply List.filter_congr
  intro r _
  by_cases h1 : r.status = status <;> by_cases h2 : r.general_category = category <;>
    simp [h1, h2]

/-- C1: for every category and row set the per-category metrics are
`TP = count(status = "TP") / 2`, `FP` and `FN` unhalved counts,
`TPrate = TP / (TP + FN)` (0 when the denominator is 0) and
`mAP = TP / (TP + FP)` (0 when the denominator is 0); on rows of one
category with 4 TP-status rows, 1 FP and 1 FN this gives `TP = 2`,
`TPrate = 2/3` and `mAP = 2/3`. -/
theorem C1_category_metrics :
    (∀ data category,
      calculate_category_metrics data category =
        (let tp : ℚ := (statusCount data category "TP" : ℚ) / 2
         let fp : ℚ := (statusCount data category "FP" : ℚ)
         let fn : ℚ := (statusCount data category "FN" : ℚ)
         { TPrate := if tp + fn > 0 then tp / (tp + fn) else 0,
           mAP := if tp + fp > 0 then tp / (tp + fp) else 0 })) ∧
    (statusCount exDataC1 "car" "TP" : ℚ) / 2 = 2 ∧
    calculate_category_metrics exDataC1 "car" = { TPrate := 2/3, mAP := 2/3 } := by
  have hmain : ∀ data category,
      calculate_category_metrics data category =
        (let tp : ℚ := (statusCount data category "TP" : ℚ) / 2
         let fp : ℚ := (statusCount data category "FP" : ℚ)
         let fn : ℚ := (statusCount data category "FN" : ℚ)
         { TPrate := if tp + fn > 0 then tp / (tp + fn) else 0,
           mAP := if tp + fp > 0 then tp / (tp + fp) else 0 }) := by
    intro data category
    simp only [calculate_category_metrics, statusCount_eq]
  have htp : statusCount exDataC1 "car" "TP" = 4 := by decide
  have hfp : statusCount exDataC1 "car" "FP" = 1 := by decide
  have hfn : statusCount exDataC1 "car" "FN" = 1 := by decide
  refine ⟨hmain, ?_, ?_⟩
  · rw [htp]; norm_num
  · rw [hmain, htp, hfp, hfn]
    simp only [Metrics.mk.injEq]
    norm_num

theorem mem_uniqueAux (a : String) (l : List String) :
    ∀ seen, a ∈ uniqueAux seen l ↔ a ∈ l ∧ a ∉ seen := by
  induction l with
  | nil => intro seen; simp [uniqueAux]
  | cons x xs ih =>
    intro seen
    unfold uniqueAux
    by_cases hx : x ∈ seen
    · rw [if_pos hx, ih]
      simp only [List.mem_cons]
      constructor
      · tauto
      · rintro ⟨rfl | h1, h2⟩
        · exact absurd hx h2
        · exact ⟨h1, h2⟩
    · rw [if_neg hx]
      simp only [List.mem_cons, ih]
      by_cases hax : a = x <;> simp [hax, hx]

theorem nodup_uniqueAux (l : List String) : ∀ seen, (uniqueAux seen l).Nodup := by
  induction l with
  | nil => intro seen; simp [uniqueAux]
  | cons x xs ih =>
    intro seen
    unfold uniqueAux
    by_cases hx : x ∈ seen
    · rw [if_pos hx]; exact ih seen
    · rw [if_neg hx]
      refine List.nodup_cons.mpr ⟨fun hmem => ?_, ih _⟩
      rw [mem_uniqueAux] at hmem
      exact hmem.2 (List.mem_cons_self _ _)

/-- C7: `calculate_metrics` groups rows by their derived category, never
produces an entry for the `"unclassified"` bucket, and returns exactly one
metrics entry per category that has at least one row; a category with zero
rows never appears. -/
theorem C7_calculate_metrics_categories
    (mapping : List (String × List String)) (rows : List CsvRow) (c : String) (m : Metrics) :
    (((c, m) ∈ calculate_metrics (apply_category_mapping mapping rows)) ↔
      (c ≠ "unclassified" ∧ (∃ r ∈ rows, map_to_category mapping r.label = c) ∧
        m = calculate_category_metrics (apply_category_mapping mapping rows) c)) ∧
    ((calculate_metrics (apply_category_mapping mapping rows)).map Prod.fst).Nodup := by
  have hmapgc : (apply_category_mapping mapping rows).map (fun r => r.general_category) =
      rows.map (fun r => map_to_category mapping r.label) := by
    unfold apply_category_mapping
    rw [List.map_map]
    rfl
  have hmem : ∀ c1 m1,
      ((c1, m1) ∈ calculate_metrics (apply_category_mapping mapping rows)) ↔
        (c1 ∈ uniqueAux [] (rows.map (fun r => map_to_category mapping r.label)) ∧
          c1 ≠ "unclassified" ∧
          m1 = calculate_category_metrics (apply_category_mapping mapping rows) c1) := by
    intro c1 m1
    unfold calculate_metrics
    rw [hmapgc, List.mem_map]
    constructor
    · rintro ⟨a, ha, heq⟩
      rw [Prod.mk.injEq] at heq
      obtain ⟨rfl, rfl⟩ := heq
      rw [List.mem_filter] at ha
      exact ⟨ha.1, by simpa using ha.2, rfl⟩
    · rintro ⟨h1, h2, rfl⟩
      exact ⟨c1, List.mem_filter.mpr ⟨h1, by simpa using h2⟩, rfl⟩
  constructor
  · rw [hmem c m, mem_uniqueAux, List.mem_map]
    simp only [List.not_mem_nil, not_false_iff, and_true]
    tauto
  · have hkeys : (calculate_metrics (apply_category_mapping mapping rows)).map Prod.fst =
        (uniqueAux []
          ((apply_category_mapping mapping rows).map (fun r => r.general_category))).filter
          (fun c => decide (c ≠ "unclassified")) := by
      unfold calculate_metrics
      rw [List.map_map]
      exact List.map_id _
    rw [hkeys]
    exact (nodup_uniqueAux _ _).filter _

theorem C7_calculate_metrics_categories_witness :
    ("car", calculate_category_metrics (apply_category_mapping exMapping exCsvRows) "car") ∈
      calculate_metrics (apply_category_mapping exMapping exCsvRows) :=
  (C7_calculate_metrics_categories exMapping exCsvRows "car"
      (calculate_category_metrics (apply_category_mapping exMapping exCsvRows) "car")).1.mpr
    ⟨by decide,
     ⟨{ label := "car", status := "TP", distance_from_ego := some 10 },
      by simp [exCsvRows], by decide⟩, rfl⟩

theorem applyAggOp_eq_assign (data : List DRow) (op : AggOp) :
    applyAggOp data op =
      assignDistanceBin data (match op with | .byStatus b => b | .byCategory b => b) := by
  cases op <;> rfl

theorem assignDistanceBin_eraseBin (data : List DRow) (b : ℚ) :
    (assignDistanceBin data b).map eraseBin = data.map eraseBin := by
  unfold assignDistanceBin
  rw [List.map_map]
  rfl

theorem statusCount_assignBin (data : List DRow) (b : ℚ) (c s : String) :
    statusCount (assignDistanceBin data b) c s = statusCount data c s := by
  unfold statusCount assignDistanceBin
  rw [List.filter_map, List.length_map]
  rfl

theorem ccm_assignBin (data : List DRow) (b : ℚ) (c : String) :
    calculate_category_metrics (assignDistanceBin data b) c =
      calculate_category_metrics data c := by
  simp only [calculate_category_metrics, statusCount_eq, statusCount_assignBin]

theorem calculate_metrics_assignBin (data : List DRow) (b : ℚ) :
    calculate_metrics (assignDistanceBin data b) = calculate_metrics data := by
  unfold calculate_metrics
  have hgc : (assignDistanceBin data b).map (fun r => r.general_category) =
      data.map (fun r => r.general_category) := by
    unfold assignDistanceBin
    rw [List.map_map]
    rfl
  rw [hgc]
  congr 1
  funext c
  rw [ccm_assignBin]

/-- C10: each distance-aggregation call changes the stored dataset only in
the `distance_bin` column: every pre-existing column, the row count and the
`general_category` assignment are unchanged, and `calculate_metrics`
returns the same result before and after any sequence of aggregation calls
with any bin sizes. -/
theorem C10_aggregation_preserves_data (data : List DRow) (ops : List AggOp) :
    (applyAggOps data ops).map eraseBin = data.map eraseBin ∧
    (applyAggOps data ops).length = data.length ∧
    calculate_metrics (applyAggOps data ops) = calculate_metrics data := by
  induction ops generalizing data with
  | nil => exact ⟨rfl, rfl, rfl⟩
  | cons op rest ih =>
    have hstep : applyAggOps data (op :: rest) = applyAggOps (applyAggOp data op) rest := rfl
    have h1 : (applyAggOp data op).map eraseBin = data.map eraseBin := by
      rw [applyAggOp_eq_assign]
      exact assignDistanceBin_eraseBin ..
    have h3 : calculate_metrics (applyAggOp data op) = calculate_metrics data := by
      rw [applyAggOp_eq_assign]
      exact calculate_metrics_assignBin ..
    obtain ⟨ih1, ih2, ih3⟩ := ih (applyAggOp data op)
    refine ⟨hstep ▸ ih1.trans h1, ?_, hstep ▸ ih3.trans h3⟩
    have hlen : (applyAggOp data op).length = data.length := by
      have := congrArg List.length h1
      simpa using this
    rw [hstep]
    exact ih2.trans hlen

theorem bin_count_status (data : List DRow) (bin_size b : ℚ) (s : String) :
    (distance_based_fp_tp_fn data bin_size).1 b s =
      (data.filter (fun r =>
        r.distance_from_ego.map (fun d => binOf d bin_size) = some b ∧
          r.status = s)).length := by
  simp only [distance_based_fp_tp_fn]
  unfold assignDistanceBin
  rw [List.filter_map, List.length_map]
  apply congrArg List.length
  apply List.filter_congr
  intro r _
  simp only [Function.comp_apply]
  rw [decide_eq_decide]
  simp

theorem bin_count_category (data : List DRow) (bin_size b : ℚ) (c : String) :
    (distance_based_categoly_analysis data bin_size).1 b c =
      (data.filter (fun r =>
        r.distance_from_ego.map (fun d => binOf d bin_size) = some b ∧
          r.general_category = c)).length := by
  simp only [distance_based_categoly_analysis]
  unfold assignDistanceBin
  rw [List.filter_map, List.length_map]
  apply congrArg List.length
  apply List.filter_congr
  intro r _
  simp only [Function.comp_apply]
  rw [decide_eq_decide]
  simp

/-- C6: distance aggregation assigns each non-null-distance row the bin
`floor(distance / binSize) * binSize` (e.g. distance 23.4 with bin size 10
gives bin 20), and null-distance rows are excluded entirely: in both the
by-status and by-category modes every group count equals the count over the
rows with non-null distance only, and a null row never contributes to any
bin. -/
theorem C6_distance_binning (data : List DRow) (bin_size : ℚ) (_hpos : 0 < bin_size) :
    (∀ b s, (distance_based_fp_tp_fn data bin_size).1 b s =
      (data.filter (fun r =>
        r.distance_from_ego.map (fun d => binOf d bin_size) = some b ∧
          r.status = s)).length) ∧
    (∀ b c, (distance_based_categoly_analysis data bin_size).1 b c =
      (data.filter (fun r =>
        r.distance_from_ego.map (fun d => binOf d bin_size) = some b ∧
          r.general_category = c)).length) ∧
    (∀ b s, (distance_based_fp_tp_fn data bin_size).1 b s =
      (distance_based_fp_tp_fn (data.filter (fun r => r.distance_from_ego ≠ none))
        bin_size).1 b s) ∧
    (∀ b c, (distance_based_categoly_analysis data bin_size).1 b c =
      (distance_based_categoly_analysis (data.filter (fun r => r.distance_from_ego ≠ none))
        bin_size).1 b c) ∧
    binOf (117/5) 10 = 20 := by
  have hex : binOf (117/5) 10 = 20 := by
    unfold binOf
    have hfloor : Int.floor ((117/5 : ℚ)/10) = 2 := by
      rw [Int.floor_eq_iff]
      constructor <;> norm_num
    rw [hfloor]
    norm_num
  refine ⟨fun b s => bin_count_status .., fun b c => bin_count_category .., ?_, ?_, hex⟩
  · intro b s
    rw [bin_count_status, bin_count_status, List.filter_filter]
    apply congrArg List.length
    apply List.filter_congr
    intro r _
    cases hd : r.distance_from_ego with
    | none => simp [hd]
    | some d => simp [hd]
  · intro b c
    rw [bin_count_category, bin_count_category, List.filter_filter]
    apply congrArg List.length
    apply List.filter_congr
    intro r _
    cases hd : r.distance_from_ego with
    | none => simp [hd]
    | some d => simp [hd]

theorem C6_distance_binning_witness :
    (0:ℚ) < 10 ∧ binOf (117/5) 10 = 20 ∧
    (distance_based_fp_tp_fn exDataC6 10).1 20 "TP" =
      (exDataC6.filter (fun r =>
        r.distance_from_ego.map (fun d => binOf d 10) = some 20 ∧
          r.status = "TP")).length :=
  ⟨by norm_num, (C6_distance_binning exDataC6 10 (by norm_num)).2.2.2.2,
   (C6_distance_binning exDataC6 10 (by norm_num)).1 20 "TP"⟩

theorem okBind {α β : Type} (a : α) (f : α → Except String β) :
    (Except.ok a).bind f = f a := rfl

theorem errBind {α β : Type} (e : String) (f : α → Except String β) :
    (Except.error e : Except String α).bind f = Except.error e := rfl

theorem pyGet_obj (fields : List (String × JVal)) (k : String) (d : JVal) :
    pyGet (JVal.obj fields) k d = Except.ok ((dictGet fields k).getD d) := rfl

theorem exceptMapList_mem (f : JVal → Except String Row) (xs : List JVal) :
    ∀ {rs : List Row}, exceptMapList f xs = Except.ok rs →
      ∀ r ∈ rs, ∃ x ∈ xs, f x = Except.ok r := by
  induction xs with
  | nil =>
    intro rs h r hr
    simp only [exceptMapList, Except.ok.injEq] at h
    subst h
    cases hr
  | cons x xs ih =>
    intro rs h r hr
    simp only [exceptMapList, except_bind_ok, Except.ok.injEq] at h
    obtain ⟨r0, hr0, rs0, hrs0, rfl⟩ := h
    rcases List.mem_cons.mp hr with rfl | hr
    · exact ⟨x, List.mem_cons_self _ _, hr0⟩
    · obtain ⟨y, hy, hfy⟩ := ih hrs0 r hr
      exact ⟨y, List.mem_cons_of_mem _ hy, hfy⟩

theorem exceptMapList_length (f : JVal → Except String Row) (xs : List JVal) :
    ∀ {rs : List Row}, exceptMapList f xs = Except.ok rs → rs.length = xs.length := by
  induction xs with
  | nil =>
    intro rs h
    simp only [exceptMapList, Except.ok.injEq] at h
    subst h
    rfl
  | cons x xs ih =>
    intro rs h
    simp only [exceptMapList, except_bind_ok, Except.ok.injEq] at h
    obtain ⟨r0, -, rs0, hrs0, rfl⟩ := h
    simp [ih hrs0]

theorem extractObjRow_keys {obj stamp success : JVal} {r : Row}
    (h : extractObjRow obj stamp success = Except.ok r) : keysOf r = objKeys := by
  simp only [extractObjRow, except_bind_ok, Except.ok.injEq] at h
  obtain ⟨_, -, _, -, _, -, _, -, _, -, _, -, _, -, _, -, _, -, _, -, _, -, _, -, _, -, _, -,
    rfl⟩ := h
  rfl

theorem parse_ego_shape {frame : JVal} {r : Row}
    (h : parse_ego frame = Except.ok r) : r = [] ∨ keysOf r = egoKeys := by
  simp only [parse_ego, except_bind_ok] at h
  obtain ⟨ego, -, tr, -, td, -, hd, -, hs, -, h⟩ := h
  by_cases htr : truthy hs = false
  · rw [if_pos htr] at h
    injection h with h
    exact Or.inl h.symm
  · rw [if_neg htr] at h
    simp only [except_bind_ok, Except.ok.injEq] at h
    obtain ⟨_, -, _, -, _, -, _, -, _, -, _, -, _, -, _, -, _, -, _, -, _, -, _, -, rfl⟩ := h
    right
    rfl

theorem extractRecord_rows {record : JVal} {rs : List Row}
    (h : extractRecord record = Except.ok rs) :
    rs = [] ∨ ∃ ego rest, rs = ego :: rest ∧ (ego = [] ∨ keysOf ego = egoKeys) ∧
      ∀ r ∈ rest, keysOf r = objKeys := by
  simp only [extractRecord, except_bind_ok] at h
  obtain ⟨frame, -, h⟩ := h
  by_cases hf : truthy frame = false
  · rw [if_pos hf] at h
    injection h with h
    exact Or.inl h.symm
  · rw [if_neg hf] at h
    simp only [except_bind_ok, Except.ok.injEq] at h
    obtain ⟨res, -, sc, -, st, -, su, -, cr, -, ov, -, egoRow, hego, objs, hobjs,
      objRows, hrows, rfl⟩ := h
    refine Or.inr ⟨egoRow, objRows, rfl, parse_ego_shape hego, fun r hr => ?_⟩
    obtain ⟨x, -, hx⟩ := exceptMapList_mem _ _ hrows r hr
    exact extractObjRow_keys hx

theorem extract_objects_mem {data : List JVal} {rows : List Row}
    (h : extract_objects data = Except.ok rows) :
    ∀ r ∈ rows, r = [] ∨ keysOf r = egoKeys ∨ keysOf r = objKeys := by
  induction data generalizing rows with
  | nil =>
    intro r hr
    simp only [extract_objects, Except.ok.injEq] at h
    subst h
    cases hr
  | cons rcd rest ih =>
    simp only [extract_objects, except_bind_ok, Except.ok.injEq] at h
    obtain ⟨rs, hrs, more, hmore, rfl⟩ := h
    intro r hr
    rcases List.mem_append.mp hr with hr | hr
    · rcases extractRecord_rows hrs with rfl | ⟨ego, rest2, rfl, hego, hobj⟩
      · cases hr
      · rcases List.mem_cons.mp hr with rfl | hr
        · rcases hego with h1 | h1
          · exact Or.inl h1
          · exact Or.inr (Or.inl h1)
        · exact Or.inr (Or.inr (hobj r hr))
    · exact ih hmore r hr

theorem extractRecord_count {record : JVal} {rs : List Row}
    (h : extractRecord record = Except.ok rs) :
    recordRowCount record = Except.ok rs.length := by
  simp only [extractRecord, except_bind_ok] at h
  obtain ⟨frame, hframe, h⟩ := h
  unfold recordRowCount
  rw [hframe, okBind]
  by_cases hf : truthy frame = false
  · rw [if_pos hf] at h ⊢
    injection h with h
    subst h
    rfl
  · rw [if_neg hf] at h ⊢
    simp only [except_bind_ok, Except.ok.injEq] at h
    obtain ⟨res, hres, sc, hsc, st, hst, su, hsu, cr, hcr, ov, hov, egoRow, -, objs, hobjs,
      objRows, hrows, rfl⟩ := h
    rw [hres, okBind, hsc, okBind, hst, okBind, hsu, okBind, hcr, okBind, hov, okBind,
      hobjs, okBind]
    simp [exceptMapList_length _ _ hrows]

/-- C2 counterexample: a record with a well-formed ego frame and one object
produces an ego row with the nine ego columns and an object row with the
twenty-five object columns; the two field sets differ, so ego rows and
object rows do not carry identical column sets. -/
theorem C2_counterexample :
    (extract_objects [recEgoAndObject]).map (fun rows => rows.map keysOf) =
      Except.ok [egoKeys, objKeys] ∧ egoKeys ≠ objKeys := by
  exact ⟨rfl, by decide⟩

/-- C2 (amended): ego rows carry the fixed nine-field set and object rows
the fixed twenty-five-field set (within each kind the field set is
constant, missing values being null/empty, but the two kinds differ; a
stamp-less frame contributes an empty entry); every record with a truthy
`Frame` produces exactly one ego entry followed by exactly one row per
entry of its object list, and a record with no `Frame` produces zero
rows. -/
theorem C2_row_field_sets :
    egoKeys ≠ objKeys ∧
    (∀ data rows, extract_objects data = Except.ok rows →
      ∀ r ∈ rows, r = [] ∨ keysOf r = egoKeys ∨ keysOf r = objKeys) ∧
    (∀ record rs, extractRecord record = Except.ok rs →
      rs = [] ∨ ∃ ego rest, rs = ego :: rest ∧ (ego = [] ∨ keysOf ego = egoKeys) ∧
        ∀ r ∈ rest, keysOf r = objKeys) ∧
    (∀ record rs, extractRecord record = Except.ok rs →
      recordRowCount record = Except.ok rs.length) :=
  ⟨by decide, fun _ _ h => extract_objects_mem h,
   fun _ _ h => extractRecord_rows h,
   fun _ _ h => extractRecord_count h⟩

theorem C2_row_field_sets_witness :
    recordRowCount recNoStamp = Except.ok 1 :=
  C2_row_field_sets.2.2.2 recNoStamp [[]] (by rfl)

/-- C3 counterexample: for a record whose frame has an empty `header.stamp`
the extracted output is not empty: `extract_objects` still appends the
empty record returned by `parse_ego`, so the frame contributes one (empty)
entry instead of no row at all. -/
theorem C3_counterexample :
    extract_objects [recNoStamp] = Except.ok [[]] ∧
      (Except.ok ([[]] : List Row) : Except String (List Row)) ≠ Except.ok [] := by
  refine ⟨rfl, fun h => ?_⟩
  injection h with h
  cases h

/-- C3 (amended): for a frame whose nested `header.stamp` sub-object is
absent or empty, `parse_ego` returns the empty record, but the extraction
still appends it, so the frame contributes one empty entry to the extracted
output rather than no row at all; for a well-formed stamp the emitted ego
row's timestamp equals `sec + nanosec * 1e-9` exactly (e.g.
`sec=1606799233`, `nanosec=249851000` gives timestamp
`1606799233.249851`). -/
theorem C3_ego_stamp_behavior :
    (∀ frame st, egoStamp frame = Except.ok st → truthy st = false →
      parse_ego frame = Except.ok []) ∧
    (∀ frame fs s n row, egoStamp frame = Except.ok (.obj fs) →
      dictGet fs "sec" = some (.num s) → dictGet fs "nanosec" = some (.num n) →
      parse_ego frame = Except.ok row →
      ("timestamp", JVal.num (s + n * (1 / 1000000000))) ∈ row) ∧
    extract_objects [recNoStamp] = Except.ok [[]] ∧
    (parse_ego frameWithStamp).map (fun r => dictGet r "timestamp") =
      Except.ok (some (JVal.num (1606799233249851 / 1000000))) := by
  refine ⟨?_, ?_, rfl, ?_⟩
  · intro frame st hstamp htr
    simp only [egoStamp, except_bind_ok] at hstamp
    obtain ⟨ego, hego, tr, htrn, td, htd, hd, hhd, hstamp⟩ := hstamp
    unfold parse_ego
    simp only [hego, htrn, htd, hhd, hstamp, okBind]
    rw [if_pos htr]
  · intro frame fs s n row hstamp hsec hnano hrow
    simp only [egoStamp, except_bind_ok] at hstamp
    obtain ⟨ego, hego, tr, htrn, td, htd, hd, hhd, hstamp⟩ := hstamp
    have hne : fs ≠ [] := by
      intro hfs
      rw [hfs] at hsec
      simp [dictGet] at hsec
    have htr : truthy (JVal.obj fs) = true := by
      cases fs with
      | nil => exact absurd rfl hne
      | cons a l => rfl
    have hsec' : pyGet (JVal.obj fs) "sec" JVal.null = Except.ok (JVal.num s) := by
      rw [pyGet_obj, hsec]
      rfl
    have hnano' : pyGet (JVal.obj fs) "nanosec" (JVal.num 0) = Except.ok (JVal.num n) := by
      rw [pyGet_obj, hnano]
      rfl
    unfold parse_ego at hrow
    simp only [hego, htrn, htd, hhd, hstamp, okBind] at hrow
    rw [if_neg (by simp [htr])] at hrow
    simp only [hsec', hnano', okBind, addStamp, pyNum] at hrow
    simp only [except_bind_ok, Except.ok.injEq] at hrow
    obtain ⟨_, -, _, -, _, -, _, -, _, -, _, -, _, -, _, -, _, -, rfl⟩ := hrow
    exact List.mem_cons_self _ _
  · have h1 : (parse_ego frameWithStamp).map (fun r => dictGet r "timestamp") =
        Except.ok (some (JVal.num ((1606799233 : ℚ) + 249851000 * (1 / 1000000000)))) := rfl
    have h2 : (1606799233 : ℚ) + 249851000 * (1 / 1000000000) =
        1606799233249851 / 1000000 := by norm_num
    rw [h1, h2]

theorem C3_ego_stamp_behavior_witness :
    parse_ego frameNoStamp = Except.ok [] :=
  C3_ego_stamp_behavior.1 frameNoStamp (JVal.obj []) (by rfl) (by rfl)

/-- C4: for a frame whose `header.stamp` is present and non-empty but lacks
the `sec` field, no default is substituted: the timestamp addition fails
with a `TypeError` exactly as the source numeric addition would, and no ego
row is emitted for that frame (the extraction propagates the error rather
than producing a row with a defaulted timestamp). -/
theorem C4_missing_sec_fails (frame : JVal) (fs : List (String × JVal))
    (hstamp : egoStamp frame = Except.ok (.obj fs))
    (hne : fs ≠ [])
    (hsec : dictGet fs "sec" = none) :
    parse_ego frame = Except.error "TypeError" ∧
      ∀ row, parse_ego frame ≠ Except.ok row := by
  simp only [egoStamp, except_bind_ok] at hstamp
  obtain ⟨ego, hego, tr, htrn, td, htd, hd, hhd, hstamp⟩ := hstamp
  have htr : truthy (JVal.obj fs) = true := by
    cases fs with
    | nil => exact absurd rfl hne
    | cons a l => rfl
  have hsec' : pyGet (JVal.obj fs) "sec" JVal.null = Except.ok JVal.null := by
    rw [pyGet_obj, hsec]
    rfl
  have hmain : parse_ego frame = Except.error "TypeError" := by
    unfold parse_ego
    simp only [hego, htrn, htd, hhd, hstamp, okBind]
    rw [if_neg (by simp [htr])]
    rw [hsec', okBind, pyGet_obj, okBind]
    simp only [addStamp, pyNum, errBind]
  refine ⟨hmain, fun row h => ?_⟩
  rw [hmain] at h
  cases h

theorem C4_missing_sec_fails_witness :
    parse_ego frameNoSec = Except.error "TypeError" :=
  (C4_missing_sec_fails frameNoSec [("nanosec", JVal.num 5)] (by rfl) (by simp) (by rfl)).1
